import Mathlib

/-!
Shallow embedding of the RAG PDF-query service (FastAPI + Gemini) found in
`app/`: the sentence chunker (`app/pdf_ingestor.py`), the linear-scan vector
store (`app/vector_store.py`), the query pipeline (`app/query_handler.py`)
and the `/query` endpoint (`app/main.py`).  Python strings are modelled as
`List Char`/`String`, floats as `ℚ` (only orderings of similarity scores
matter to the verified properties), external calls (PDF text extraction,
Gemini embedding and generation) as explicit parameters or abstract
outcomes.
-/

/-! ## Python string primitives -/

/-- Characters stripped by Python's `str.strip()` with no arguments. -/
def isPySpace (c : Char) : Bool :=
  c = ' ' || c = '\t' || c = '\n' || c = '\x0d' || c = '\x0b' || c = '\x0c'

/-- Python `s.strip()` on a list of characters. -/
def pyStrip (s : List Char) : List Char :=
  ((s.dropWhile isPySpace).reverse.dropWhile isPySpace).reverse

/-- Python `s.split('. ')`: leftmost, non-overlapping split on the two-character
separator `". "`.  `acc` holds the (reversed) characters of the piece being
accumulated. -/
def splitDotSpace : List Char → List Char → List (List Char)
  | '.' :: ' ' :: rest, acc => acc.reverse :: splitDotSpace rest []
  | c :: rest, acc => splitDotSpace rest (c :: acc)
  | [], acc => [acc.reverse]

/-- Python `s.rfind('. ')` restricted to found/not-found: the start index of the
last occurrence of `". "` in `s`, if any. -/
def rfindDS : List Char → Option Nat
  | [] => none
  | c :: rest =>
    match rfindDS rest with
    | some i => some (i + 1)
    | none =>
      match c, rest with
      | '.', ' ' :: _ => some 0
      | _, _ => none

/-- Python `s[-k:]`.  For `k = 0` the Python slice `s[-0:]` is `s[0:]`, i.e.
the whole string. -/
def pySliceLast (k : Nat) (s : List Char) : List Char :=
  if k = 0 then s else s.drop (s.length - k)

/-- Python substring containment `needle in hay`. -/
def substr (needle : List Char) : List Char → Bool
  | [] => needle.isEmpty
  | c :: rest => needle.isPrefixOf (c :: rest) || substr needle rest

/-- Python `s.lower()` (ASCII-adequate). -/
def lowerStr (s : String) : String :=
  ⟨s.data.map Char.toLower⟩

/-! ## Chunker (`PDFIngestor.create_chunks` / `get_overlap_text`) -/

/-- One chunk produced by `PDFIngestor.create_chunks`: the dict
`\x7b'text', 'page', 'chunk_index'\x7d`. -/
structure Chunk where
  text : List Char
  page : Nat
  chunk_index : Nat
deriving DecidableEq, Repr

/-- `PDFIngestor.get_overlap_text(text)` with `chunk_overlap = O`: the last `O`
characters of `text`, trimmed forward past the last interior sentence boundary
if one exists, then stripped. -/
def get_overlap_text (O : Nat) (text : List Char) : List Char :=
  if text.length ≤ O then text
  else
    let overlap := pySliceLast O text
    let overlap2 :=
      match rfindDS overlap with
      | some i => if 0 < i then overlap.drop (i + 2) else overlap
      | none => overlap
    pyStrip overlap2

/-- The sentence-accumulation loop of `PDFIngestor.create_chunks`, with chunk
size `S` and overlap `O`: greedily extend `current` with the next stripped
sentence; when that would exceed `S` and `current` is non-empty, emit
`current.strip()` and seed the next buffer with the overlap tail. -/
def chunkLoop (S O page : Nat) :
    List (List Char) → List Char → Nat → List Chunk → List Chunk
  | [], current, ci, acc =>
    if pyStrip current ≠ [] then acc ++ [⟨pyStrip current, page, ci⟩] else acc
  | s :: rest, current, ci, acc =>
    let sentence := pyStrip s
    if sentence = [] then chunkLoop S O page rest current ci acc
    else
      let potential :=
        if current ≠ [] then current ++ ('.' :: ' ' :: sentence) else sentence
      if S < potential.length ∧ current ≠ [] then
        let ov := get_overlap_text O current
        chunkLoop S O page rest
          (if ov ≠ [] then ov ++ ('.' :: ' ' :: sentence) else sentence)
          (ci + 1) (acc ++ [⟨pyStrip current, page, ci⟩])
      else chunkLoop S O page rest potential ci acc

/-- `PDFIngestor.create_chunks(text, page_num)` with chunk size `S` and overlap
`O`: strip the input, split on `". "`, run the accumulation loop. -/
def create_chunks (S O : Nat) (text : List Char) (page_num : Nat) : List Chunk :=
  let t := pyStrip text
  if t = [] then []
  else chunkLoop S O page_num (splitDotSpace t []) [] 0 []

/-- Length of the longest stripped sentence in a sentence list. -/
def maxStripLen (xs : List (List Char)) : Nat :=
  xs.foldr (fun s m => max (pyStrip s).length m) 0

/-! ## Vector store (`app/vector_store.py`) -/

/-- A stored document record as built in `VectorStore.add_documents`:
content plus source/page/chunk metadata. -/
structure Document where
  content : String
  source : String
  page : Nat
  chunk_id : String
  chunk_index : Nat
deriving DecidableEq, Repr, Inhabited

/-- A search hit as built in `VectorStore.search`. -/
structure SearchResult where
  content : String
  source : String
  page : Nat
  chunk_id : String
  similarity : ℚ
  distance : ℚ
deriving DecidableEq, Repr

/-- The `VectorStore` state: the in-memory `embeddings`/`documents` lists plus
the contents of the two pickle files written by `_save_data`
(`EMBEDDINGS_FILE`, `DOCUMENTS_FILE`). -/
structure VectorStore where
  embeddings : List (List ℚ)
  documents : List Document
  savedEmbeddings : List (List ℚ)
  savedDocuments : List Document
deriving DecidableEq, Repr

/-- `similarities[i]`: similarity score of stored entry `i` against the query.
Vector-store indices obtained from `np.argsort` are always in bounds, so the
default is never read there. -/
def simKey (sims : List ℚ) (i : Nat) : ℚ :=
  sims.getD i 0

/-- Comparison used to sort indices by their similarity score ascending, as
`np.argsort(similarities)` does. -/
def simRel (sims : List ℚ) (i j : Nat) : Prop :=
  simKey sims i ≤ simKey sims j

instance (sims : List ℚ) : DecidableRel (simRel sims) :=
  fun i j => inferInstanceAs (Decidable (simKey sims i ≤ simKey sims j))

instance (sims : List ℚ) : IsTotal Nat (simRel sims) :=
  ⟨fun i j => le_total (simKey sims i) (simKey sims j)⟩

instance (sims : List ℚ) : IsTrans Nat (simRel sims) :=
  ⟨fun _ _ _ hab hbc => le_trans hab hbc⟩

/-- `np.argsort(similarities)`: the indices `0..n-1` sorted by score
ascending, modelled with a stable sort.  numpy's default `kind='quicksort'`
(introsort) is documented as not stable; it degenerates to a stable insertion
sort only on small partitions (≤ 16 elements), so the model's tie order is
the program's only in that small regime.  Theorems that depend on tie order
are therefore stated only at small sizes; result count, membership and
score ranking are independent of this modelling choice. -/
def argsortAsc (sims : List ℚ) : List Nat :=
  List.insertionSort (simRel sims) (List.range sims.length)

/-- The result dict built for index `idx` in the loop of `VectorStore.search`. -/
def searchResultAt (vs : VectorStore) (sims : List ℚ) (idx : Nat) : SearchResult :=
  let doc := vs.documents.getD idx default
  { content := doc.content
    source := doc.source
    page := doc.page
    chunk_id := doc.chunk_id
    similarity := simKey sims idx
    distance := 1 - simKey sims idx }

/-- `VectorStore.search`: empty-store early return, else take the stored-entry
indices sorted by similarity descending (`np.argsort(similarities)[::-1]`),
truncate to `top_k`, and format each in-bounds index into a result dict.
`sims` stands for the score row `cosine_similarity(query_vector, matrix)[0]`
computed from the externally produced query embedding. -/
def VectorStore.search (vs : VectorStore) (sims : List ℚ) (top_k : Nat) :
    List SearchResult :=
  if vs.embeddings.isEmpty then []
  else
    (((argsortAsc sims).reverse).take top_k).filterMap fun idx =>
      if idx < vs.documents.length then some (searchResultAt vs sims idx)
      else none

/-- `VectorStore.add_documents`: early return on an empty batch; otherwise
append one embedding (produced by the external `_get_embedding`, modelled by
`embed`) and one metadata record per input document, then `_save_data`. -/
def add_documents (embed : String → List ℚ) (vs : VectorStore)
    (docs : List Document) : VectorStore :=
  if docs = [] then vs
  else
    let vs' := docs.foldl
      (fun v d =>
        { v with
          embeddings := v.embeddings ++ [embed d.content]
          documents := v.documents ++ [d] })
      vs
    { vs' with
      savedEmbeddings := vs'.embeddings
      savedDocuments := vs'.documents }

/-- `VectorStore.is_document_processed(filename)`: some stored record has
`source == filename`. -/
def is_document_processed (vs : VectorStore) (filename : String) : Bool :=
  vs.documents.any (fun d => d.source = filename)

/-- `VectorStore.list_documents()`: `sorted(list(set(sources)))`. -/
def list_documents (vs : VectorStore) : List String :=
  List.insertionSort (· ≤ ·) ((vs.documents.map (·.source)).dedup)

/-! ## Ingestion pipeline (`app/pdf_ingestor.py`) -/

/-- A PDF on disk, abstracted to its filename and the per-page text that
`fitz` extracts from it. -/
structure PdfFile where
  name : String
  pages : List (List Char)
deriving DecidableEq, Repr

/-- Index of the last occurrence of character `c`, if any (Python `rfind`). -/
def rfindChar (c : Char) : List Char → Option Nat
  | [] => none
  | d :: rest =>
    match rfindChar c rest with
    | some i => some (i + 1)
    | none => if d = c then some 0 else none

/-- Python `os.path.splitext(filename)[0]` for ordinary filenames (a leading
dot, as in `.bashrc`, is not an extension separator; ingested names always
have a stem here). -/
def dropExt (s : String) : String :=
  match rfindChar '.' s.data with
  | some i => if 0 < i then ⟨s.data.take i⟩ else s
  | none => s

/-- `PDFIngestor.generate_chunk_id(filename, page, chunk_index)`. -/
def generate_chunk_id (filename : String) (page chunk_index : Nat) : String :=
  dropExt filename ++ "-p" ++ toString page ++ "-c" ++ toString chunk_index

/-- The page loop of `PDFIngestor.extract_text_from_pdf`: pages are numbered
from 1, pages with only whitespace are skipped, the rest are chunked. -/
def extractPages (S O : Nat) : List (List Char) → Nat → List Chunk
  | [], _ => []
  | t :: rest, pn =>
    (if pyStrip t = [] then [] else create_chunks S O t pn)
      ++ extractPages S O rest (pn + 1)

/-- `PDFIngestor.process_pdf`: extract and chunk the pages; if nothing was
extracted return unchanged, else attach metadata to every chunk and add the
batch to the vector store. -/
def process_pdf (embed : String → List ℚ) (S O : Nat) (vs : VectorStore)
    (f : PdfFile) : VectorStore :=
  let text_chunks := extractPages S O f.pages 1
  if text_chunks = [] then vs
  else
    add_documents embed vs (text_chunks.map fun cd =>
      { content := ⟨cd.text⟩
        source := f.name
        page := cd.page
        chunk_id := generate_chunk_id f.name cd.page cd.chunk_index
        chunk_index := cd.chunk_index })

/-- `PDFIngestor.process_pdfs_folder`: list `*.pdf` files, return early when
none, else process each file, skipping any whose filename is already a stored
source. -/
def process_pdfs_folder (embed : String → List ℚ) (S O : Nat)
    (vs : VectorStore) (folder : List PdfFile) : VectorStore :=
  let pdf_files := folder.filter fun f => (lowerStr f.name).endsWith ".pdf"
  if pdf_files.isEmpty then vs
  else
    pdf_files.foldl
      (fun v f =>
        if is_document_processed v f.name then v else process_pdf embed S O v f)
      vs

/-! ## Query pipeline (`app/query_handler.py`) -/

/-- JSON values as produced by `json.loads` on the generation model's text. -/
inductive JValue where
  | str (s : String)
  | num (n : Int)
  | boolean (b : Bool)
  | null
  | arr (elems : List JValue)
  | dict (fields : List (String × JValue))

/-- Python dict lookup `d[k]` / membership `k in d`, on a field list. -/
def lookupF (k : String) (d : List (String × JValue)) : Option JValue :=
  (d.find? fun p => p.1 = k).map (·.2)

/-- Python dict item assignment `d[k] = v`, on a field list. -/
def setF (k : String) (v : JValue) : List (String × JValue) → List (String × JValue)
  | [] => [(k, v)]
  | (k', v') :: rest => if k' = k then (k, v) :: rest else (k', v') :: setF k v rest

/-- A citation dict `\x7b'clause', 'text', 'source'\x7d`. -/
def citationJ (clause text source : String) : JValue :=
  .dict [("clause", .str clause), ("text", .str text), ("source", .str source)]

/-- The words whose presence in the top result marks coverage
(`["covered", "approved", "eligible"]` in `_make_decision`). -/
def coverageWords : List String := ["covered", "approved", "eligible"]

/-- The words that downgrade a coverage hit to `Uncertain`
(`["waiting", "period", "days"]`). -/
def waitingWords : List String := ["waiting", "period", "days"]

/-- The words whose presence marks exclusion
(`["excluded", "not covered", "rejected"]`). -/
def exclusionWords : List String := ["excluded", "not covered", "rejected"]

/-- Python `any(word in content for word in words)`. -/
def containsAny (content : String) (words : List String) : Bool :=
  words.any fun w => substr w.data content.data

/-- A character matched by `[\d,]` in the amount regex. -/
def isAmtChar (c : Char) : Bool :=
  c.isDigit || c = ','

/-- Python `re.search(r'₹[\d,]+', s)`: the leftmost rupee sign followed by at
least one digit-or-comma, with the maximal such run. -/
def amountFrom : List Char → Option (List Char)
  | [] => none
  | c :: rest =>
    if c = '₹' && !(rest.takeWhile isAmtChar).isEmpty
    then some ('₹' :: rest.takeWhile isAmtChar)
    else amountFrom rest

/-- The citation synthesized for a missing/non-list `justification`
(lines 186–200 of `query_handler.py`). -/
def synthCitation (results : List SearchResult) : JValue :=
  match results with
  | best :: _ =>
    citationJ ("Page " ++ toString best.page) (best.content.take 200 ++ "...")
      best.source
  | [] => citationJ "N/A" "No relevant information found" "N/A"

/-- Line 183–184 of `query_handler.py`: default `decision` to `"Uncertain"`
when the key is absent. -/
def defaultDecisionStep (d : List (String × JValue)) : List (String × JValue) :=
  if (lookupF "decision" d).isNone then setF "decision" (.str "Uncertain") d
  else d

/-- Lines 186–200: replace a missing or non-list `justification` by a single
synthesized citation. -/
def fixJustificationStep (results : List SearchResult)
    (d : List (String × JValue)) : List (String × JValue) :=
  match lookupF "justification" d with
  | some (.arr _) => d
  | _ => setF "justification" (.arr [synthCitation results]) d

/-- Lines 202–203: default `alternatives` to `[]` when the key is absent. -/
def defaultAlternativesStep (d : List (String × JValue)) :
    List (String × JValue) :=
  if (lookupF "alternatives" d).isNone then setF "alternatives" (.arr []) d
  else d

/-- The repair pass on a successfully parsed decision dict
(lines 179–205): the three sequential dict mutations above. -/
def normalizeDecision (results : List SearchResult)
    (d : List (String × JValue)) : List (String × JValue) :=
  defaultAlternativesStep (fixJustificationStep results (defaultDecisionStep d))

/-- The keyword fallback used when the generation text cannot be parsed
(lines 212–252): coverage words beat exclusion words, waiting words downgrade
coverage to `Uncertain`, the amount is the first `₹[\d,]+` match. -/
def heuristicDecision (results : List SearchResult) : List (String × JValue) :=
  match results with
  | [] =>
    [("decision", .str "Uncertain"), ("amount", .null),
     ("justification",
       .arr [citationJ "N/A" "Unable to process the policy documents properly." "N/A"]),
     ("alternatives", .arr [])]
  | best :: _ =>
    let content_lower := lowerStr best.content
    let decision :=
      if containsAny content_lower coverageWords then
        if containsAny content_lower waitingWords then "Uncertain" else "Approved"
      else if containsAny content_lower exclusionWords then "Rejected"
      else "Uncertain"
    let amount :=
      match amountFrom best.content.data with
      | some a => JValue.str ⟨a⟩
      | none => JValue.null
    [("decision", .str decision), ("amount", amount),
     ("justification",
       .arr [citationJ ("Page " ++ toString best.page)
         (best.content.take 200 ++ "...") best.source]),
     ("alternatives", .arr [])]

/-- Outcome of the generation call plus the JSON cleanup/parse of its text in
`_make_decision`: the call raised (network/provider error, with message),
or it returned text that does not parse to a JSON dict, or it returned text
whose extracted JSON object parsed to the given field list. -/
inductive GenOutcome where
  | raised (msg : String)
  | returns (parsed : Option (List (String × JValue)))

/-- `QueryHandler._make_decision`: normalize a parsed dict, fall back to the
keyword heuristic on a parse failure, and absorb a raised generation call into
an `Uncertain` dict (lines 254–267). -/
def makeDecision (results : List SearchResult) (out : GenOutcome) :
    List (String × JValue) :=
  match out with
  | .raised msg =>
    [("decision", .str "Uncertain"), ("amount", .null),
     ("justification", .arr [citationJ "N/A" ("Processing error: " ++ msg) "N/A"]),
     ("alternatives", .arr [])]
  | .returns none => heuristicDecision results
  | .returns (some d) => normalizeDecision results d

/-- Outcome of `vector_store.search` inside `process_query`: it raised (e.g.
the embedding call failed) or it returned a result list. -/
inductive SearchOutcome where
  | raised (msg : String)
  | found (results : List SearchResult)

/-- `QueryHandler.process_query`: no results yields the `Unknown` dict
(lines 36–47), otherwise `_make_decision` runs; any exception escaping a step
is absorbed into an `Uncertain` dict (lines 60–71).  The best-effort
`_parse_query` step never raises and only feeds the prompt, so it does not
appear in the model. -/
def process_query (sOut : SearchOutcome) (gOut : GenOutcome) :
    List (String × JValue) :=
  match sOut with
  | .raised msg =>
    [("decision", .str "Uncertain"), ("amount", .null),
     ("justification",
       .arr [citationJ "N/A" ("Error processing query: " ++ msg) "N/A"]),
     ("alternatives", .arr [])]
  | .found [] =>
    [("decision", .str "Unknown"), ("amount", .null),
     ("justification",
       .arr [citationJ "N/A" "No relevant clause found in provided documents." "N/A"]),
     ("alternatives", .arr [])]
  | .found (r :: rs) => makeDecision (r :: rs) gOut

/-- The `decision` field of a returned dict. -/
def decisionOf (d : List (String × JValue)) : Option JValue :=
  lookupF "decision" d

/-- The `justification` field of a returned dict. -/
def justificationOf (d : List (String × JValue)) : Option JValue :=
  lookupF "justification" d

/-! ## Query endpoint (`app/main.py`, `process_query` route) -/

/-- What the `/query` route hands back to FastAPI: a response body, or a
raised `HTTPException` with a status code. -/
inductive EndpointResult where
  | ok (body : List (String × JValue))
  | httpError (status : Nat)

/-- A failure raised inside the route's `try` block: an explicit
`HTTPException`, or the `ValidationError` from `QueryResponse(**result)`. -/
inductive RouteFailure where
  | httpException (status : Nat)
  | validationError

/-- Whether a field value validates against a pydantic `str` field (a JSON
string; numbers are not coerced). -/
def isStrField : Option JValue → Bool
  | some (.str _) => true
  | _ => false

/-- Whether a JSON value validates against `JustificationItem`
(`app/main.py` lines 76–79): a dict with string `clause`, `text`, `source`
(extra keys are ignored). -/
def isCitationItem : JValue → Bool
  | .dict fields =>
    isStrField (lookupF "clause" fields) && isStrField (lookupF "text" fields)
      && isStrField (lookupF "source" fields)
  | _ => false

/-- Whether `QueryResponse(**d)` (`app/main.py` lines 81–85) validates:
`decision` a required string, `amount` an optional string (absent or `null`
allowed), `justification` a required list of `JustificationItem`,
`alternatives` an optional such list defaulting to `[]`. -/
def validQueryResponse (d : List (String × JValue)) : Bool :=
  isStrField (lookupF "decision" d) &&
  (match lookupF "amount" d with
   | none => true
   | some .null => true
   | some (.str _) => true
   | _ => false) &&
  (match lookupF "justification" d with
   | some (.arr xs) => xs.all isCitationItem
   | _ => false) &&
  (match lookupF "alternatives" d with
   | none => true
   | some (.arr xs) => xs.all isCitationItem
   | _ => false)

/-- The `/query` route (lines 115–134 of `app/main.py`).  Inside the `try`
block: 503 when the handler is uninitialized, 400 when the stripped query is
empty, else the handler's dict is validated by `QueryResponse(**result)`,
raising `ValidationError` when it does not fit the response model.
`fastapi.HTTPException` subclasses `Exception`, so every one of these raises
is caught by the route's own `except Exception` clause, which re-raises
status 500.  The handler itself never raises
(`QueryHandler.process_query` absorbs every failure). -/
def process_query_endpoint (initialized : Bool) (query : String)
    (handlerResult : List (String × JValue)) : EndpointResult :=
  let tryBody : Except RouteFailure (List (String × JValue)) :=
    if !initialized then .error (.httpException 503)
    else if pyStrip query.data = [] then .error (.httpException 400)
    else if validQueryResponse handlerResult then .ok handlerResult
    else .error .validationError
  match tryBody with
  | .ok r => .ok r
  | .error _ => .httpError 500

/-! ## Sample data used by concrete witnesses and counterexamples -/

/-- Text whose chunking at size 10 / overlap 5 exhibits an over-long
overlap-seeded chunk. -/
def cexText : List Char := ("aaaaaaaa. bbbbbbbb. c").data

/-- A two-entry store; entry 0 has `chunk_id` `"a"`, entry 1 has `"b"`. -/
def vsPair : VectorStore :=
  ⟨[[1], [1]],
   [⟨"da", "a.pdf", 1, "a", 0⟩, ⟨"db", "b.pdf", 1, "b", 0⟩],
   [], []⟩

/-- A generic top search hit. -/
def topHit : SearchResult :=
  ⟨"some policy text", "policy.pdf", 3, "policy-p3-c0", 1/2, 1/2⟩

/-- A top hit whose content mentions both coverage and exclusion. -/
def coveredExcludedHit : SearchResult :=
  ⟨"this procedure is covered but excluded in winter", "policy.pdf", 3,
   "policy-p3-c1", 1/2, 1/2⟩

/-- A top hit whose content only mentions exclusion. -/
def excludedHit : SearchResult :=
  ⟨"dental procedures are excluded from this plan", "policy.pdf", 2,
   "policy-p2-c0", 1/2, 1/2⟩

/-- A store that already ingested `a.pdf`, in memory and on disk. -/
def ingestedStore : VectorStore :=
  ⟨[[1]], [⟨"text", "a.pdf", 1, "a-p1-c0", 0⟩],
   [[1]], [⟨"text", "a.pdf", 1, "a-p1-c0", 0⟩]⟩

/-- A one-page PDF named like the already-ingested document. -/
def samplePdf : PdfFile := ⟨"a.pdf", [("hello world").data]⟩

/-- Two stores holding the same chunks in opposite insertion orders. -/
def storeBA : VectorStore :=
  ⟨[], [⟨"c", "b.pdf", 1, "x", 0⟩, ⟨"c", "a.pdf", 1, "y", 0⟩], [], []⟩

/-- See `storeBA`. -/
def storeAB : VectorStore :=
  ⟨[], [⟨"c", "a.pdf", 1, "y", 0⟩, ⟨"c", "b.pdf", 1, "x", 0⟩], [], []⟩

open List

/-! ## Helper lemmas -/

theorem dropWhile_length_le (p : Char → Bool) (l : List Char) :
    (l.dropWhile p).length ≤ l.length := by
  induction l with
  | nil => simp
  | cons c rest ih =>
    by_cases h : p c
    · rw [List.dropWhile_cons_of_pos h, List.length_cons]
      omega
    · rw [List.dropWhile_cons_of_neg h]

theorem pyStrip_length_le (s : List Char) : (pyStrip s).length ≤ s.length := by
  unfold pyStrip
  calc ((s.dropWhile isPySpace).reverse.dropWhile isPySpace).reverse.length
      = ((s.dropWhile isPySpace).reverse.dropWhile isPySpace).length := by
        rw [List.length_reverse]
    _ ≤ (s.dropWhile isPySpace).reverse.length := dropWhile_length_le _ _
    _ = (s.dropWhile isPySpace).length := by rw [List.length_reverse]
    _ ≤ s.length := dropWhile_length_le _ _

theorem get_overlap_text_length_le {O : Nat} (hO : 0 < O) (t : List Char) :
    (get_overlap_text O t).length ≤ O := by
  unfold get_overlap_text
  split
  · next h => exact h
  · next h =>
    push_neg at h
    have hsl : (pySliceLast O t).length = O := by
      unfold pySliceLast
      rw [if_neg (Nat.pos_iff_ne_zero.mp hO), List.length_drop]
      omega
    refine le_trans (le_trans (pyStrip_length_le _) ?_) hsl.le
    cases hr : rfindDS (pySliceLast O t) with
    | none => simp
    | some i =>
      dsimp only
      split
      · rw [List.length_drop]; omega
      · exact le_rfl

theorem le_maxStripLen {s : List Char} :
    ∀ {xs : List (List Char)}, s ∈ xs → (pyStrip s).length ≤ maxStripLen xs := by
  intro xs
  induction xs with
  | nil => intro h; cases h
  | cons x rest ih =>
    intro h
    rcases List.mem_cons.mp h with h | h
    · subst h; exact le_max_left _ _
    · exact le_trans (ih h) (le_max_right _ _)
theorem chunkLoop_length_le (S O page : Nat) (hO : 0 < O) (M : Nat) :
    ∀ (sents : List (List Char)) (current : List Char) (ci : Nat)
      (acc : List Chunk),
      (∀ s ∈ sents, (pyStrip s).length ≤ M) →
      current.length ≤ max S (O + 2 + M) →
      (∀ c ∈ acc, c.text.length ≤ max S (O + 2 + M)) →
      ∀ c ∈ chunkLoop S O page sents current ci acc,
        c.text.length ≤ max S (O + 2 + M) := by
  intro sents
  induction sents with
  | nil =>
    intro current ci acc _ hcur hacc c hc
    simp only [chunkLoop] at hc
    split at hc
    · rcases List.mem_append.mp hc with h | h
      · exact hacc c h
      · rcases List.mem_singleton.mp h with rfl
        exact le_trans (pyStrip_length_le _) hcur
    · exact hacc c hc
  | cons s rest ih =>
    intro current ci acc hs hcur hacc c hc
    have hsM : (pyStrip s).length ≤ M := hs s (List.mem_cons_self s rest)
    have hsrest : ∀ s' ∈ rest, (pyStrip s').length ≤ M :=
      fun s' h => hs s' (List.mem_cons_of_mem _ h)
    simp only [chunkLoop] at hc
    split at hc
    · exact ih current ci acc hsrest hcur hacc c hc
    · split at hc
      · next hcu =>
        split at hc
        · refine ih _ (ci + 1) _ hsrest ?_ ?_ c hc
          · split
            · simp only [List.length_append, List.length_cons]
              have h1 := get_overlap_text_length_le hO current
              have h2 := le_max_right S (O + 2 + M)
              omega
            · exact le_trans hsM (le_trans (Nat.le_add_left _ _) (le_max_right _ _))
          · intro c' hc'
            rcases List.mem_append.mp hc' with h | h
            · exact hacc c' h
            · rcases List.mem_singleton.mp h with rfl
              exact le_trans (pyStrip_length_le _) hcur
        · next hcond =>
          refine ih _ ci acc hsrest ?_ hacc c hc
          have hle : ¬ S < (current ++ '.' :: ' ' :: pyStrip s).length :=
            fun hlt => hcond ⟨hlt, hcu⟩
          exact le_trans (Nat.le_of_not_lt hle) (le_max_left _ _)
      · next hcu =>
        split at hc
        · next hcond => exact absurd hcond.2 hcu
        · refine ih _ ci acc hsrest ?_ hacc c hc
          exact le_trans hsM (le_trans (Nat.le_add_left _ _) (le_max_right _ _))

/-! ## C2: chunk sizes -/

/--
C2 (amended): for chunk size `S` and overlap `O` with `0 < O`, every chunk
emitted by `create_chunks` has at most `max S (O + 2 + m)` characters, where
`m` is the length of the longest stripped sentence of the input.  A chunk may
exceed `S` characters without being a single over-long sentence: a chunk
seeded with the overlap tail of its predecessor holds that tail, a `". "`
separator and the next sentence, and is emitted whole even when this exceeds
`S`.
-/
theorem create_chunks_size_bound (S O : Nat) (text : List Char) (page : Nat)
    (hO : 0 < O) :
    ∀ c ∈ create_chunks S O text page,
      c.text.length ≤
        max S (O + 2 + maxStripLen (splitDotSpace (pyStrip text) [])) := by
  intro c hc
  simp only [create_chunks] at hc
  split at hc
  · cases hc
  · exact chunkLoop_length_le S O page hO _ _ [] 0 []
      (fun s hs => le_maxStripLen hs) (by simp) (by intro c' hc'; cases hc')
      c hc

/-- Witness for `create_chunks_size_bound` at `S = 10`, `O = 5`,
input `"aaaaaaaa. bbbbbbbb. c"`, page 1. -/
theorem create_chunks_size_bound_witness :
    0 < 5 ∧
      ∀ c ∈ create_chunks 10 5 cexText 1,
        c.text.length ≤
          max 10 (5 + 2 + maxStripLen (splitDotSpace (pyStrip cexText) [])) :=
  ⟨by decide, create_chunks_size_bound 10 5 cexText 1 (by decide)⟩

/--
C2 counterexample to the claim as stated: chunking
`"aaaaaaaa. bbbbbbbb. c"` with `max_size = 10`, `overlap = 5` emits the chunk
`"aaaaa. bbbbbbbb"` of 15 > 10 characters, which is not a single sentence
(it splits at a `". "` boundary into two sentences of 5 and 8 characters).
-/
theorem create_chunks_claimed_bound_cex :
    ¬ (∀ c ∈ create_chunks 10 5 cexText 1,
        c.text.length ≤ 10 ∨ (splitDotSpace c.text []).length = 1) := by
  decide

/-! ## C3/C4: search ranking -/

theorem mem_argsortAsc {sims : List ℚ} {i : Nat} :
    i ∈ argsortAsc sims ↔ i < sims.length := by
  unfold argsortAsc
  rw [List.mem_insertionSort, List.mem_range]

theorem length_argsortAsc (sims : List ℚ) :
    (argsortAsc sims).length = sims.length := by
  unfold argsortAsc
  rw [List.length_insertionSort, List.length_range]

theorem filterMap_guard_eq_map {β : Type} (g : Nat → β) (m : Nat) :
    ∀ l : List Nat, (∀ i ∈ l, i < m) →
      (l.filterMap fun idx => if idx < m then some (g idx) else none) = l.map g := by
  intro l
  induction l with
  | nil => intro _; rfl
  | cons x rest ih =>
    intro h
    rw [List.filterMap_cons, if_pos (h x (List.mem_cons_self x rest)), List.map_cons,
      ih fun i hi => h i (List.mem_cons_of_mem _ hi)]

theorem search_eq_map (vs : VectorStore) (sims : List ℚ) (k : Nat)
    (hne : ¬ vs.embeddings.isEmpty) (hsd : sims.length ≤ vs.documents.length) :
    vs.search sims k =
      (((argsortAsc sims).reverse).take k).map (searchResultAt vs sims) := by
  unfold VectorStore.search
  rw [if_neg hne]
  refine filterMap_guard_eq_map _ _ _ fun i hi => ?_
  have : i ∈ argsortAsc sims :=
    List.mem_reverse.mp ((List.take_sublist _ _).subset hi)
  exact lt_of_lt_of_le (mem_argsortAsc.mp this) hsd

/--
C3: with the stored similarity row and metadata aligned with the embeddings
(the invariant `add_documents` maintains), `search` returns exactly
`min k n` results for `n` stored entries, ranked by non-increasing
similarity; and on an empty store it returns `[]` for every score row and
every `k`, without error.
-/
theorem search_returns_min_k_ranked (vs : VectorStore) (sims : List ℚ) (k : Nat)
    (hse : sims.length = vs.embeddings.length)
    (hde : vs.documents.length = vs.embeddings.length) :
    (vs.search sims k).length = min k vs.documents.length ∧
    (vs.search sims k).Pairwise (fun a b => b.similarity ≤ a.similarity) ∧
    (vs.embeddings = [] → ∀ sims' k', vs.search sims' k' = []) := by
  refine ⟨?_, ?_, ?_⟩
  · by_cases hemp : vs.embeddings.isEmpty
    · have h0 : vs.embeddings = [] := List.isEmpty_iff.mp hemp
      have hd0 : vs.documents.length = 0 := by rw [hde, h0]; rfl
      simp [VectorStore.search, hemp, hd0]
    · rw [search_eq_map vs sims k hemp (by omega)]
      rw [List.length_map, List.length_take, List.length_reverse, length_argsortAsc]
      omega
  · by_cases hemp : vs.embeddings.isEmpty
    · simp [VectorStore.search, hemp]
    · rw [search_eq_map vs sims k hemp (by omega)]
      have hsorted : (argsortAsc sims).Pairwise (simRel sims) :=
        List.sorted_insertionSort _ _
      have hrev : ((argsortAsc sims).reverse).Pairwise (fun a b => simRel sims b a) :=
        List.pairwise_reverse.mpr hsorted
      have htake := hrev.sublist (List.take_sublist k _)
      refine htake.map _ fun a b hab => ?_
      simpa [searchResultAt] using hab
  · intro h0 sims' k'
    simp [VectorStore.search, h0]

/-- Witness for `search_returns_min_k_ranked` on a concrete two-entry store
with `k = 5`. -/
theorem search_returns_min_k_ranked_witness :
    ([(1 : ℚ)/2, 3/4].length = vsPair.embeddings.length ∧
      vsPair.documents.length = vsPair.embeddings.length) ∧
    (vsPair.search [(1 : ℚ)/2, 3/4] 5).length = min 5 vsPair.documents.length :=
  ⟨⟨by decide, by decide⟩,
    (search_returns_min_k_ranked vsPair [(1 : ℚ)/2, 3/4] 5 (by decide) (by decide)).1⟩

/--
C4 counterexample to the claim as stated: on a two-entry store whose entries
have equal similarity to the query, `search` returns the later-inserted entry
(`chunk_id` `"b"`) first, not the earlier-inserted one (`"a"`):
`np.argsort(similarities)[::-1]` reverses a stable ascending sort, so equal
scores come out in reverse insertion order.
-/
theorem search_tie_order_cex :
    (vsPair.search [0, 0] 2).map (fun r => r.chunk_id) = ["b", "a"] ∧
    ¬ (vsPair.search [0, 0] 2).map (fun r => r.chunk_id) = ["a", "b"] := by
  constructor
  · decide
  · decide

/--
C4 (amended): the program guarantees no universal tie order — numpy's
default quicksort argsort is not stable beyond its small-array
insertion-sort regime — and within that regime the order is the opposite of
the claim.  On a two-entry store whose entries have equal similarity to the
query (and `k` covering the store), `search` returns the later-inserted
entry first: the descending ranking `np.argsort(similarities)[::-1]`
reverses the ascending argsort, so the tie comes out in reverse insertion
order.
-/
theorem search_tie_pair_reverse_order (vs : VectorStore) (sims : List ℚ)
    (k : Nat) (hse : sims.length = 2) (hde : vs.documents.length = 2)
    (hee : vs.embeddings.length = 2)
    (heq : simKey sims 0 = simKey sims 1) (hk : 2 ≤ k) :
    vs.search sims k = [searchResultAt vs sims 1, searchResultAt vs sims 0] := by
  have hne : ¬ vs.embeddings.isEmpty := by
    intro h
    rw [List.isEmpty_iff.mp h] at hee
    simp only [List.length_nil] at hee
    omega
  rw [search_eq_map vs sims k hne (by omega)]
  have ha : argsortAsc sims = [0, 1] := by
    unfold argsortAsc
    rw [hse]
    show List.insertionSort (simRel sims) [0, 1] = [0, 1]
    simp only [List.insertionSort, List.orderedInsert]
    rw [if_pos (show simRel sims 0 1 from heq.le)]
  rw [ha]
  have ht : (([0, 1] : List Nat).reverse).take k = [1, 0] := by
    show ([1, 0] : List Nat).take k = [1, 0]
    exact List.take_of_length_le (by simpa using hk)
  rw [ht]
  rfl

/-- Witness for `search_tie_pair_reverse_order` on the concrete tied
two-entry store. -/
theorem search_tie_pair_reverse_order_witness :
    (([0, 0] : List ℚ).length = 2 ∧ vsPair.documents.length = 2 ∧
      vsPair.embeddings.length = 2 ∧ simKey [0, 0] 0 = simKey [0, 0] 1 ∧
      2 ≤ 2) ∧
    vsPair.search [0, 0] 2 =
      [searchResultAt vsPair [0, 0] 1, searchResultAt vsPair [0, 0] 0] :=
  ⟨⟨by decide, by decide, by decide, by decide, by decide⟩,
    search_tie_pair_reverse_order vsPair [0, 0] 2 (by decide) (by decide)
      (by decide) (by decide) (by decide)⟩

/-! ## C8/C9/C10: ingestion idempotence, source listing, empty add -/

theorem foldl_skip_processed (embed : String → List ℚ) (S O : Nat)
    (vs : VectorStore) :
    ∀ l : List PdfFile, (∀ f ∈ l, is_document_processed vs f.name = true) →
      l.foldl
        (fun v f =>
          if is_document_processed v f.name then v else process_pdf embed S O v f)
        vs = vs := by
  intro l
  induction l with
  | nil => intro _; rfl
  | cons f rest ih =>
    intro h
    rw [List.foldl_cons]
    have hf : is_document_processed vs f.name = true :=
      h f (List.mem_cons_self f rest)
    rw [if_pos hf]
    exact ih fun f' h' => h f' (List.mem_cons_of_mem _ h')

/--
C8: re-running the ingestion pipeline over a folder all of whose documents'
filenames are already stored sources leaves the vector store unchanged —
every such document is skipped before any chunking or embedding, so zero new
chunks are added.
-/
theorem ingest_skips_processed (embed : String → List ℚ) (S O : Nat)
    (vs : VectorStore) (folder : List PdfFile)
    (h : ∀ f ∈ folder, is_document_processed vs f.name = true) :
    process_pdfs_folder embed S O vs folder = vs := by
  simp only [process_pdfs_folder]
  split
  · rfl
  · exact foldl_skip_processed embed S O vs _
      fun f hf => h f (List.mem_of_mem_filter hf)

/-- Witness for `ingest_skips_processed`: re-ingesting a folder holding only
the already-ingested `a.pdf`. -/
theorem ingest_skips_processed_witness :
    (∀ f ∈ [samplePdf], is_document_processed ingestedStore f.name = true) ∧
    process_pdfs_folder (fun _ => []) 1000 200 ingestedStore [samplePdf] =
      ingestedStore :=
  ⟨by decide,
    ingest_skips_processed (fun _ => []) 1000 200 ingestedStore [samplePdf]
      (by decide)⟩

/--
C9: `list_documents` returns a `≤`-sorted, duplicate-free list containing
exactly the distinct stored source filenames, and its value depends only on
the multiset of stored records, not on their insertion order.
-/
theorem list_documents_sorted_distinct (vs : VectorStore) :
    (list_documents vs).Sorted (· ≤ ·) ∧
    (list_documents vs).Nodup ∧
    (∀ s, s ∈ list_documents vs ↔ s ∈ vs.documents.map (fun d => d.source)) ∧
    (∀ vs' : VectorStore, vs.documents ~ vs'.documents →
      list_documents vs = list_documents vs') := by
  refine ⟨List.sorted_insertionSort _ _, ?_, ?_, ?_⟩
  · exact (List.perm_insertionSort _ _).symm.nodup (List.nodup_dedup _)
  · intro s
    simp [list_documents, List.mem_insertionSort, List.mem_dedup]
  · intro vs' hperm
    refine List.eq_of_perm_of_sorted ?_ (List.sorted_insertionSort _ _)
      (List.sorted_insertionSort _ _)
    exact (List.perm_insertionSort _ _).trans
      (((hperm.map _).dedup).trans (List.perm_insertionSort _ _).symm)

/-- Witness for `list_documents_sorted_distinct`: two stores holding the same
records in opposite orders list the same sorted sources. -/
theorem list_documents_sorted_distinct_witness :
    (storeBA.documents ~ storeAB.documents) ∧
    list_documents storeBA = list_documents storeAB :=
  ⟨by decide, (list_documents_sorted_distinct storeBA).2.2.2 storeAB (by decide)⟩

/--
C10: `add_documents` called with an empty batch returns before touching
anything: the in-memory embeddings and documents and both persistence files
are unchanged.
-/
theorem add_documents_nil_noop (embed : String → List ℚ) (vs : VectorStore) :
    add_documents embed vs [] = vs := rfl

/-! ## C1: the `/query` endpoint status codes -/

/--
C1: evaluating the `/query` route model.  (i) An empty (whitespace-only)
query makes the route raise `HTTPException(400)` inside its own `try`, but
`HTTPException` subclasses `Exception`, so the route's `except Exception`
catches it and re-raises status 500 — the endpoint returns a 5xx, not a 4xx,
for the malformed request; (ii) likewise the 503 for an uninitialized
handler becomes a 500; (iii) a handler dict that fits the `QueryResponse`
model (here: the pipeline's no-results dict) is returned with status 200;
(iv) a generation output that parses but carries `decision: null` survives
the handler's repair pass (the key is present) and then fails
`QueryResponse(**result)` validation, so even this model-output failure
surfaces as a 500.
-/
theorem query_endpoint_status_eval :
    process_query_endpoint true " " (process_query (.found []) (.returns none)) =
      .httpError 500 ∧
    process_query_endpoint false "q" (process_query (.found []) (.returns none)) =
      .httpError 500 ∧
    process_query_endpoint true "q" (process_query (.found []) (.returns none)) =
      .ok (process_query (.found []) (.returns none)) ∧
    process_query_endpoint true "q"
        (process_query (.found [topHit])
          (.returns (some [("decision", JValue.null)]))) =
      .httpError 500 :=
  ⟨rfl, rfl, rfl, rfl⟩

/-! ## C5/C6/C7: decision-dict shape -/

theorem lookupF_setF_self (k : String) (v : JValue) :
    ∀ d, lookupF k (setF k v d) = some v := by
  intro d
  induction d with
  | nil => simp [lookupF, setF]
  | cons p rest ih =>
    obtain ⟨k', v'⟩ := p
    by_cases h : k' = k
    · subst h; simp [lookupF, setF]
    · simpa [lookupF, setF, h] using ih

theorem lookupF_setF_of_ne (k k' : String) (v : JValue) (h : k ≠ k') :
    ∀ d, lookupF k (setF k' v d) = lookupF k d := by
  intro d
  induction d with
  | nil => simp [lookupF, setF, Ne.symm h]
  | cons p rest ih =>
    obtain ⟨k'', v''⟩ := p
    by_cases h2 : k'' = k'
    · subst h2
      simp [lookupF, setF, Ne.symm h]
    · by_cases h3 : k'' = k
      · subst h3; simp [lookupF, setF, h2]
      · simpa [lookupF, setF, h2, h3] using ih

theorem lookupF_fixJustificationStep_ne (results : List SearchResult)
    (d : List (String × JValue)) (k : String) (hk : k ≠ "justification") :
    lookupF k (fixJustificationStep results d) = lookupF k d := by
  unfold fixJustificationStep
  split
  · rfl
  · exact lookupF_setF_of_ne k "justification" _ hk d

theorem lookupF_defaultAlternativesStep_ne (d : List (String × JValue))
    (k : String) (hk : k ≠ "alternatives") :
    lookupF k (defaultAlternativesStep d) = lookupF k d := by
  unfold defaultAlternativesStep
  split
  · exact lookupF_setF_of_ne k "alternatives" _ hk d
  · rfl

theorem decisionOf_normalizeDecision (results : List SearchResult)
    (d : List (String × JValue)) :
    decisionOf (normalizeDecision results d) =
      if (lookupF "decision" d).isNone then some (.str "Uncertain")
      else lookupF "decision" d := by
  unfold normalizeDecision decisionOf
  rw [lookupF_defaultAlternativesStep_ne _ _ (by decide),
    lookupF_fixJustificationStep_ne _ _ _ (by decide)]
  unfold defaultDecisionStep
  split
  · exact lookupF_setF_self _ _ _
  · rfl

theorem justificationOf_fixJustificationStep (results : List SearchResult)
    (d : List (String × JValue)) :
    justificationOf (fixJustificationStep results d) =
      match lookupF "justification" d with
      | some (.arr xs) => some (.arr xs)
      | _ => some (.arr [synthCitation results]) := by
  unfold fixJustificationStep justificationOf
  cases hj : lookupF "justification" d with
  | none => exact lookupF_setF_self _ _ _
  | some v =>
    cases v with
    | arr xs => exact hj
    | str s => exact lookupF_setF_self _ _ _
    | num n => exact lookupF_setF_self _ _ _
    | boolean b => exact lookupF_setF_self _ _ _
    | null => exact lookupF_setF_self _ _ _
    | dict fields => exact lookupF_setF_self _ _ _

theorem justificationOf_normalizeDecision (results : List SearchResult)
    (d : List (String × JValue)) :
    justificationOf (normalizeDecision results d) =
      match lookupF "justification" d with
      | some (.arr xs) => some (.arr xs)
      | _ => some (.arr [synthCitation results]) := by
  unfold normalizeDecision
  have h1 : justificationOf
      (defaultAlternativesStep
        (fixJustificationStep results (defaultDecisionStep d))) =
      justificationOf (fixJustificationStep results (defaultDecisionStep d)) :=
    lookupF_defaultAlternativesStep_ne _ _ (by decide)
  rw [h1, justificationOf_fixJustificationStep]
  have h2 : lookupF "justification" (defaultDecisionStep d) =
      lookupF "justification" d := by
    unfold defaultDecisionStep
    split
    · exact lookupF_setF_of_ne _ "decision" _ (by decide) d
    · rfl
  rw [h2]

/--
C5 (amended): every dict returned by the query pipeline carries a `decision`
key, and when the generation output parses to a JSON object that omits
`decision`, the returned value is `"Uncertain"`.  The pipeline does not,
however, restrict the value to the three enum members: a present value is
passed through unvalidated, and the no-results path returns `"Unknown"`,
outside the enum.
-/
theorem decision_present_default_uncertain :
    (∀ (s : SearchOutcome) (g : GenOutcome),
        (decisionOf (process_query s g)).isSome) ∧
    (∀ (d : List (String × JValue)) (r : SearchResult) (rs : List SearchResult),
        lookupF "decision" d = none →
        decisionOf (process_query (.found (r :: rs)) (.returns (some d))) =
          some (.str "Uncertain")) := by
  constructor
  · intro s g
    match s with
    | .raised msg => rfl
    | .found [] => rfl
    | .found (r :: rs) =>
      match g with
      | .raised msg => rfl
      | .returns none =>
        show (decisionOf (heuristicDecision (r :: rs))).isSome
        simp [heuristicDecision, decisionOf, lookupF]
      | .returns (some d) =>
        show (decisionOf (normalizeDecision (r :: rs) d)).isSome
        rw [decisionOf_normalizeDecision]
        split
        · rfl
        · next h =>
          exact Option.isSome_iff_ne_none.mpr
            fun hn => h (Option.isNone_iff_eq_none.mpr hn)
  · intro d r rs hd
    show decisionOf (normalizeDecision (r :: rs) d) = some (.str "Uncertain")
    rw [decisionOf_normalizeDecision, hd]
    rfl

/-- Witness for `decision_present_default_uncertain`: the second component at
a generation output that omits `decision`. -/
theorem decision_present_default_uncertain_witness :
    lookupF "decision" [("amount", JValue.null)] = none ∧
    decisionOf
        (process_query (.found [topHit])
          (.returns (some [("amount", JValue.null)]))) =
      some (.str "Uncertain") :=
  ⟨rfl,
    decision_present_default_uncertain.2 [("amount", JValue.null)] topHit []
      rfl⟩

/--
C5 counterexample to the claim as stated: a generation output supplying
`decision = "Maybe"` is passed through verbatim — the returned decision is
not one of `Approved`, `Rejected`, `Uncertain`.
-/
theorem decision_passthrough_cex :
    decisionOf
        (process_query (.found [topHit])
          (.returns (some [("decision", .str "Maybe")]))) =
      some (.str "Maybe") ∧
    "Maybe" ∉ ["Approved", "Rejected", "Uncertain"] :=
  ⟨rfl, by decide⟩

/--
C6 (amended): the `justification` of every returned dict is a JSON list, and
when the generation output's `justification` is missing or not a list it is
replaced by a single citation synthesized from the top search result.  A
generation output supplying an empty list, however, is kept as is — the field
is not guaranteed non-empty.
-/
theorem justification_always_list :
    (∀ (s : SearchOutcome) (g : GenOutcome),
        ∃ xs, justificationOf (process_query s g) = some (.arr xs)) ∧
    (∀ (d : List (String × JValue)) (r : SearchResult) (rs : List SearchResult),
        (∀ xs, lookupF "justification" d ≠ some (.arr xs)) →
        justificationOf (process_query (.found (r :: rs)) (.returns (some d))) =
          some (.arr [synthCitation (r :: rs)])) := by
  constructor
  · intro s g
    match s with
    | .raised msg => exact ⟨_, rfl⟩
    | .found [] => exact ⟨_, rfl⟩
    | .found (r :: rs) =>
      match g with
      | .raised msg => exact ⟨_, rfl⟩
      | .returns none =>
        exact ⟨_, show justificationOf (heuristicDecision (r :: rs)) = _ from rfl⟩
      | .returns (some d) =>
        show ∃ xs, justificationOf (normalizeDecision (r :: rs) d) = some (.arr xs)
        rw [justificationOf_normalizeDecision]
        cases hj : lookupF "justification" d with
        | none => exact ⟨_, rfl⟩
        | some v => cases v <;> exact ⟨_, rfl⟩
  · intro d r rs hd
    show justificationOf (normalizeDecision (r :: rs) d) = _
    rw [justificationOf_normalizeDecision]
    cases hj : lookupF "justification" d with
    | none => rfl
    | some v =>
      cases v with
      | arr xs => exact absurd hj (hd xs)
      | str s => rfl
      | num n => rfl
      | boolean b => rfl
      | null => rfl
      | dict fields => rfl

/-- Witness for `justification_always_list`: the second component at a
generation output whose `justification` is a string. -/
theorem justification_always_list_witness :
    (∀ xs, lookupF "justification" [("justification", JValue.str "see page 2")] ≠
        some (.arr xs)) ∧
    justificationOf
        (process_query (.found [topHit])
          (.returns (some [("justification", JValue.str "see page 2")]))) =
      some (.arr [synthCitation [topHit]]) :=
  ⟨fun xs h => by simp [lookupF] at h,
    justification_always_list.2 [("justification", JValue.str "see page 2")]
      topHit [] (fun xs h => by simp [lookupF] at h)⟩

/--
C6 counterexample to the claim as stated: a generation output supplying
`justification = []` passes the `isinstance(..., list)` check and the
returned justification is the empty sequence.
-/
theorem justification_empty_passthrough_cex :
    ¬ ∃ x xs,
      justificationOf
          (process_query (.found [topHit])
            (.returns (some [("decision", .str "Approved"),
                             ("justification", .arr []),
                             ("alternatives", .arr [])]))) =
        some (.arr (x :: xs)) := by
  rintro ⟨x, xs, h⟩
  rw [show justificationOf
        (process_query (.found [topHit])
          (.returns (some [("decision", .str "Approved"),
                           ("justification", .arr []),
                           ("alternatives", .arr [])]))) =
      some (.arr []) from rfl] at h
  simp at h

/--
C7 (amended): when the generation text cannot be parsed, search results
exist, the top result's lowercased content contains `"excluded"` and contains
none of the coverage words `"covered"`, `"approved"`, `"eligible"`, the
heuristic fallback decides `"Rejected"`.  The coverage check runs first, so
content containing both a coverage word and `"excluded"` is not rejected.
-/
theorem heuristic_excluded_rejected (r : SearchResult) (rs : List SearchResult)
    (hex : substr ("excluded").data (lowerStr r.content).data = true)
    (hcov : containsAny (lowerStr r.content) coverageWords = false) :
    decisionOf (process_query (.found (r :: rs)) (.returns none)) =
      some (.str "Rejected") := by
  have hexc : containsAny (lowerStr r.content) exclusionWords = true := by
    simp [containsAny, exclusionWords]
    exact Or.inl hex
  show decisionOf (heuristicDecision (r :: rs)) = _
  simp [heuristicDecision, decisionOf, lookupF, hcov, hexc]

/-- Witness for `heuristic_excluded_rejected` on a top result that only
mentions exclusion. -/
theorem heuristic_excluded_rejected_witness :
    (substr ("excluded").data (lowerStr excludedHit.content).data = true ∧
      containsAny (lowerStr excludedHit.content) coverageWords = false) ∧
    decisionOf (process_query (.found [excludedHit]) (.returns none)) =
      some (.str "Rejected") :=
  ⟨⟨by decide, by decide⟩,
    heuristic_excluded_rejected excludedHit [] (by decide) (by decide)⟩

/--
C7 counterexample to the claim as stated: on unparseable generation output
with top content `"this procedure is covered but excluded in winter"` —
which contains `"excluded"` — the heuristic decides `"Approved"`, not
`"Rejected"`, because the coverage branch matches `"covered"` first.
-/
theorem heuristic_excluded_rejected_cex :
    substr ("excluded").data (lowerStr coveredExcludedHit.content).data = true ∧
    decisionOf (process_query (.found [coveredExcludedHit]) (.returns none)) =
      some (.str "Approved") ∧
    ¬ decisionOf (process_query (.found [coveredExcludedHit]) (.returns none)) =
        some (.str "Rejected") := by
  refine ⟨by decide, rfl, fun h => ?_⟩
  have h1 : decisionOf
      (process_query (.found [coveredExcludedHit]) (.returns none)) =
      some (.str "Approved") := rfl
  have h2 : some (JValue.str "Approved") = some (.str "Rejected") :=
    h1.symm.trans h
  simp at h2
